import Mathlib

/-!
Verification of the Skytide image-generator schedule layout engine.

The definitions below are a shallow embedding of the JavaScript source
`whatsapp-agenda-notifications.js` (the `generateAgendaHTML` layout engine and
the scheduled-job handler) and of the HTTP service `server.js`.  JavaScript
numbers that only ever hold integers are modelled as `Nat`/`Int`; the pixel
geometry (which divides) is modelled in exact rationals `ℚ`; fallible steps
are modelled with `Option`/`Except`.
-/

namespace Skytide

/-- Model of JavaScript `String.prototype.split(sep)` for a one-character
separator, acting on the character list of the string. -/
def splitOnChar (c : Char) : List Char → List (List Char)
  | [] => [[]]
  | x :: xs =>
    let r := splitOnChar c xs
    if x = c then [] :: r
    else
      match r with
      | [] => [[x]]
      | h :: t => (x :: h) :: t

/-- Model of JavaScript `Number(...)` applied to one split part of a time
string.  `Number("") = 0` in JavaScript; a part with a non-digit character
yields `NaN`, which is collapsed to `0` here — that case is only reachable for
malformed input, which the spec excludes by precondition. -/
def jsNumber (cs : List Char) : Nat :=
  if cs.isEmpty then 0
  else if cs.all (·.isDigit) then cs.foldl (fun n c => n * 10 + (c.toNat - 48)) 0
  else 0

/-- Embedding of `timeToMinutes` (source lines 400-403):
`const [hours, minutes] = timeString.split(':').map(Number); return hours * 60 + minutes;`. -/
def timeToMinutes (timeString : String) : Nat :=
  let parts := (splitOnChar ':' timeString.data).map jsNumber
  parts.getD 0 0 * 60 + parts.getD 1 0

/-- Model of JavaScript `s.padStart(2, '0')`: pad on the left with zeros up to
length 2 (never truncates). -/
def padStart2 (s : String) : String :=
  if s.length < 2 then String.mk (List.replicate (2 - s.length) '0') ++ s else s

/-- Embedding of `minutesToTime` (source lines 406-410):
`const hours = Math.floor(minutes / 60); const mins = minutes % 60;` followed by
zero-padded `"HH:MM"` formatting.  Note there is no reduction of `hours`
modulo 24 in the source. -/
def minutesToTime (minutes : Nat) : String :=
  let hours := minutes / 60
  let mins := minutes % 60
  padStart2 (Nat.repr hours) ++ ":" ++ padStart2 (Nat.repr mins)

/-- Modelled from the spec: the claimed behaviour of `minutesToTime`, which
"wraps modulo 24h for minutes and truncates to whole hours via floor
division", so that the hour field is `(minutes / 60) % 24`.  Used only to be
compared against the source embedding above. -/
def minutesToTimeWrapped (minutes : Nat) : String :=
  let hours := minutes / 60 % 24
  let mins := minutes % 60
  padStart2 (Nat.repr hours) ++ ":" ++ padStart2 (Nat.repr mins)

/-- Model of the JavaScript truthiness fallback `x || dflt` on an optional
string field (both `null`/`undefined` and the empty string are falsy). -/
def strOr (o : Option String) (dflt : String) : String :=
  match o with
  | none => dflt
  | some s => if s = "" then dflt else s

/-- Model of JavaScript truthiness of an optional string field. -/
def strTruthy (o : Option String) : Bool :=
  match o with
  | none => false
  | some s => !(s == "")

/-- Row of the `services` relation joined onto an appointment
(`services (name, duration_minutes)` in the handler query). -/
structure Service where
  name : String
  duration_minutes : Option Nat
deriving DecidableEq

/-- Row of the `contacts` relation joined onto an appointment. -/
structure RawContact where
  first_name : String
  last_name : String
deriving DecidableEq

/-- An appointment record as fetched by the scheduled job, after the joins.
`end_time` and `status` may be absent; `services` may be absent (no service
joined). -/
structure RawAppt where
  start_time : String
  end_time : Option String
  contacts : RawContact
  services : Option Service
  status : Option String
deriving DecidableEq

/-- Embedding of the end-time derivation (source lines 458-467):
```
let endTime = apt.end_time;
if (!endTime && apt.services && apt.services.duration_minutes) {
  endTime = minutesToTime(timeToMinutes(apt.start_time) + apt.services.duration_minutes);
} else if (!endTime) {
  endTime = minutesToTime(timeToMinutes(apt.start_time) + 30);
}
```
The first guard tests the duration for JavaScript truthiness, so a present
duration of `0` falls through to the 30-minute default branch. -/
def deriveEndTime (apt : RawAppt) : String :=
  if strTruthy apt.end_time then apt.end_time.getD ""
  else
    match apt.services with
    | some sv =>
      match sv.duration_minutes with
      | some d =>
        if d ≠ 0 then minutesToTime (timeToMinutes apt.start_time + d)
        else minutesToTime (timeToMinutes apt.start_time + 30)
      | none => minutesToTime (timeToMinutes apt.start_time + 30)
    | none => minutesToTime (timeToMinutes apt.start_time + 30)

/-- Whether `apt.services && apt.services.duration_minutes` is truthy in the
source guard. -/
def durTruthy (apt : RawAppt) : Bool :=
  match apt.services with
  | some sv =>
    match sv.duration_minutes with
    | some d => decide (d ≠ 0)
    | none => false
  | none => false

/-- One display-style record of the `APPOINTMENT_STATES` table
(source lines 413-450). -/
structure StateStyle where
  label : String
  bgColor : String
  borderColor : String
  textColor : String
deriving DecidableEq

/-- Embedding of the fixed `APPOINTMENT_STATES` table (source lines 413-450),
in source order. -/
def APPOINTMENT_STATES : List (String × StateStyle) :=
  [("programada", ⟨"Programada", "#f3f4f6", "#9ca3af", "#374151"⟩),
   ("confirmada", ⟨"Confirmada", "#dcfce7", "#16a34a", "#166534"⟩),
   ("en_curso", ⟨"En curso", "#e0e7ff", "#6366f1", "#4338ca"⟩),
   ("completada", ⟨"Completada", "#dbeafe", "#3b82f6", "#1e40af"⟩),
   ("cancelada", ⟨"Cancelada", "#fee2e2", "#dc2626", "#991b1b"⟩),
   ("no_asistio", ⟨"No asistió", "#fed7aa", "#ea580c", "#9a3412"⟩)]

/-- Lookup of a status key in the `APPOINTMENT_STATES` table. -/
def statesLookup (s : String) : Option StateStyle :=
  (APPOINTMENT_STATES.find? (fun e => e.1 == s)).map (·.2)

/-- Embedding of the status normalisation `apt.status || 'programada'`
(source line 474). -/
def apptStatusClass (st : Option String) : String :=
  strOr st "programada"

/-- The style record from the `APPOINTMENT_STATES` table that applies to an
appointment with the given raw status field: the emitted markup gives the
appointment the CSS class `apptStatusClass st`, and CSS rules are generated
only for keys of the table (source lines 735-745 and 785), so the applied
table style is the lookup of that class. `none` means no table style applies
and the element keeps only the base `.appointment` styling. -/
def effectiveStyle (st : Option String) : Option StateStyle :=
  statesLookup (apptStatusClass st)

/-- An appointment after the member-building pass (source lines 469-475):
derived end time, display client/service names, normalised status. -/
structure Appt where
  start_time : String
  end_time : String
  client : String
  service : String
  status : String
deriving DecidableEq

/-- Embedding of the per-appointment record construction inside
`Object.values(memberGroups).map` (source lines 456-475).  Accessing
`apt.services.name` throws a `TypeError` when `services` is null, modelled by
`none`. -/
def buildAppt (apt : RawAppt) : Option Appt :=
  match apt.services with
  | none => none
  | some sv =>
    some { start_time := apt.start_time
           end_time := deriveEndTime apt
           client := apt.contacts.first_name ++ " " ++ apt.contacts.last_name
           service := sv.name
           status := apptStatusClass apt.status }

/-- The `member` object of one group of `memberGroups` (a `profiles` row or
the `{first_name:'Sin', last_name:'Asignar'}` fallback; no `id` is selected by
the query, so `id` is always absent in practice). -/
structure GroupMember where
  id : Option String
  first_name : String
  last_name : String
deriving DecidableEq

/-- One value of the `memberGroups` object built by the handler. -/
structure MemberGroup where
  member : GroupMember
  appointments : List RawAppt
deriving DecidableEq

/-- A member record of the `members` array (source lines 453-477). -/
structure MemberRec where
  id : String
  name : String
  appointments : List Appt
deriving DecidableEq

/-- Embedding of `const members = Object.values(memberGroups).map(...)`
(source lines 453-477). -/
def buildMembers (groups : List MemberGroup) : Option (List MemberRec) :=
  groups.mapM (fun g =>
    (g.appointments.mapM buildAppt).map (fun apts =>
      { id := strOr g.member.id "unknown"
        name := g.member.first_name ++ " " ++ g.member.last_name
        appointments := apts }))

/-- One step of the earliest/latest scan (source lines 484-492). -/
def scanAcc (acc : Nat × Nat) (a : Appt) : Nat × Nat :=
  (if timeToMinutes a.start_time < acc.1 then timeToMinutes a.start_time else acc.1,
   if timeToMinutes a.end_time > acc.2 then timeToMinutes a.end_time else acc.2)

/-- Embedding of the scan over every appointment of every member tracking the
minimum start and maximum end, starting from `(24*60, 0)`
(source lines 480-492). -/
def scanWindow (members : List MemberRec) : Nat × Nat :=
  members.foldl (fun acc m => m.appointments.foldl scanAcc acc) (24 * 60, 0)

/-- The computed view window (source lines 495-507). -/
structure WindowRec where
  startHour : Nat
  endHour : Nat
  totalMinutes : Int
  startMinutes : Nat
deriving DecidableEq

/-- Embedding of the view-window computation (source lines 495-507).
`Math.max(0, earliest - 60)` is truncated `Nat` subtraction here;
`Math.ceil(latest / 60)` on a natural `latest` is `(latest + 59) / 60`. -/
def windowOf (members : List MemberRec) : WindowRec :=
  let scanned := scanWindow members
  let earliestTime := if scanned.1 = 24 * 60 then 8 * 60 else scanned.1 - 60
  let latestTime := if scanned.1 = 24 * 60 then 18 * 60 else min (24 * 60) (scanned.2 + 60)
  let startHour := earliestTime / 60
  let endHour := (latestTime + 59) / 60
  { startHour := startHour
    endHour := endHour
    totalMinutes := ((endHour : Int) - (startHour : Int)) * 60
    startMinutes := startHour * 60 }

/-- An appointment annotated by the column-assignment pass
(source lines 530-536).  `duration` is a JavaScript number that can be
negative for a malformed interval, hence `Int`. -/
structure Placed where
  apt : Appt
  column : Nat
  startMinutes : Nat
  endMinutes : Nat
  duration : Int
deriving DecidableEq

/-- Embedding of the half-open overlap test of the column search
(source line 525): `!(endMin <= existingStart || startMin >= existingEnd)`. -/
def overlapB (startMin endMin exStart exEnd : Nat) : Bool :=
  !(decide (endMin ≤ exStart) || decide (startMin ≥ exEnd))

/-- Embedding of the `some(...)` conflict test for a candidate column
(source lines 523-526): some already-placed appointment sits in column `c`
and overlaps `[s, e)`. -/
def conflictB (placed : List Placed) (c s e : Nat) : Bool :=
  placed.any (fun ex =>
    ex.column == c &&
      overlapB s e (timeToMinutes ex.apt.start_time) (timeToMinutes ex.apt.end_time))

/-- Fuel-indexed unfolding of the `while` loop `column++` searching for the
first conflict-free column (source lines 522-528).  The fuel
`placed.length + 1` always suffices because at most `placed.length` distinct
columns can be occupied. -/
def findColAux (placed : List Placed) (s e : Nat) : Nat → Nat → Nat
  | 0, c => c
  | fuel + 1, c => if conflictB placed c s e then findColAux placed s e fuel (c + 1) else c

/-- The column chosen for an appointment `[s, e)` against the already-placed
appointments (source lines 522-528). -/
def findCol (placed : List Placed) (s e : Nat) : Nat :=
  findColAux placed s e (placed.length + 1) 0

/-- The annotated record pushed for one appointment (source lines 530-536):
the appointment spread together with its chosen column, its start/end minutes
and its duration. -/
def newPlaced (acc : List Placed) (a : Appt) : Placed :=
  { apt := a
    column := findCol acc (timeToMinutes a.start_time) (timeToMinutes a.end_time)
    startMinutes := timeToMinutes a.start_time
    endMinutes := timeToMinutes a.end_time
    duration := (timeToMinutes a.end_time : Int) - (timeToMinutes a.start_time : Int) }

/-- Embedding of the `sortedAppointments.forEach` loop that pushes each
appointment, annotated with its chosen column and derived minute fields, onto
`appointmentsWithColumns` (source lines 517-537). -/
def assignLoop : List Placed → List Appt → List Placed
  | acc, [] => acc
  | acc, a :: rest => assignLoop (acc ++ [newPlaced acc a]) rest

/-- The ascending-start-time comparison used by the stable sort
(source lines 511-513). -/
def rStart (a b : Appt) : Prop :=
  timeToMinutes a.start_time ≤ timeToMinutes b.start_time

instance : DecidableRel rStart :=
  fun a b => inferInstanceAs (Decidable (timeToMinutes a.start_time ≤ timeToMinutes b.start_time))

instance : IsTotal Appt rStart :=
  ⟨fun a b => Nat.le_total (timeToMinutes a.start_time) (timeToMinutes b.start_time)⟩

instance : IsTrans Appt rStart :=
  ⟨fun _ _ _ => Nat.le_trans⟩

/-- Embedding of the stable ascending-start sort
`[...member.appointments].sort((a, b) => timeToMinutes(a.start_time) - timeToMinutes(b.start_time))`
(source lines 511-513); JavaScript `Array.prototype.sort` is stable, modelled
by a stable insertion sort. -/
def sortByStart (l : List Appt) : List Appt :=
  List.insertionSort rStart l

/-- The whole per-member column-assignment pass (source lines 510-537):
sort ascending by start time, then greedily place each appointment in the
lowest conflict-free column. -/
def columnPass (l : List Appt) : List Placed :=
  assignLoop [] (sortByStart l)

/-- Embedding of `Math.max(...appointmentsWithColumns.map(apt => apt.column), 0) + 1`
(source line 539). -/
def maxColumnsOf (l : List Appt) : Nat :=
  ((columnPass l).map (·.column)).foldr max 0 + 1

/-- A member record after the column-assignment pass (source lines 541-545). -/
structure ProcessedMember where
  id : String
  name : String
  appointments : List Placed
  maxColumns : Nat
deriving DecidableEq

/-- Embedding of `const processedMembers = members.map(...)`
(source lines 510-546). -/
def processMember (m : MemberRec) : ProcessedMember :=
  { id := m.id
    name := m.name
    appointments := columnPass m.appointments
    maxColumns := maxColumnsOf m.appointments }

/-- The pixel geometry emitted for one appointment. -/
structure Geometry where
  top : ℚ
  height : ℚ
deriving DecidableEq

/-- Embedding of the per-appointment pixel geometry (source lines 780-781):
```
topPosition = ((appointment.startMinutes - startMinutes) / totalMinutes) * ((endHour - startHour) * 120);
height = (appointment.duration / totalMinutes) * ((endHour - startHour) * 120);
```
with `startMinutes = startHour * 60` and `totalMinutes = (endHour - startHour) * 60`
(source lines 506-507), modelled in exact rationals. -/
def apptGeometry (startHour endHour : Nat) (p : Placed) : Geometry :=
  let startMinutes : ℚ := (startHour : ℚ) * 60
  let totalMinutes : ℚ := ((endHour : ℚ) - (startHour : ℚ)) * 60
  { top := (((p.startMinutes : ℚ) - startMinutes) / totalMinutes) *
      (((endHour : ℚ) - (startHour : ℚ)) * 120)
    height := ((p.duration : ℚ) / totalMinutes) * (((endHour : ℚ) - (startHour : ℚ)) * 120) }

/-- An organization record as joined by the handler query. -/
structure Organization where
  id : String
  name : String
deriving DecidableEq

/-- Ambient-world inputs a JavaScript function could observe besides its
arguments: the current clock (`Date.now()` / `new Date()`) and a random seed
(`Math.random()`).  The layout engine is handed this environment so that the
embedding makes visible whether it is ever consulted. -/
structure Env where
  now : Nat
  randomSeed : Nat
deriving DecidableEq

/-- Spanish weekday names of the `es-ES` locale data consulted by
`toLocaleDateString` (fixed ICU data, index 0 = domingo/Sunday). -/
def SPANISH_WEEKDAYS : List String :=
  ["domingo", "lunes", "martes", "miércoles", "jueves", "viernes", "sábado"]

/-- Spanish month names of the `es-ES` locale data. -/
def SPANISH_MONTHS : List String :=
  ["enero", "febrero", "marzo", "abril", "mayo", "junio",
   "julio", "agosto", "septiembre", "octubre", "noviembre", "diciembre"]

/-- Parse the `"YYYY-MM-DD"` date argument into numeric components, as
`new Date(dateStr + 'T00:00:00')` does. -/
def parseDateParts (s : String) : Nat × Nat × Nat :=
  let parts := (splitOnChar '-' s.data).map jsNumber
  (parts.getD 0 0, parts.getD 1 0, parts.getD 2 0)

/-- Gregorian day-of-week (0 = Sunday) by Sakamoto's method — the calendar
arithmetic behind the locale formatter's weekday field. -/
def dayOfWeek (y m d : Nat) : Nat :=
  let t : List Nat := [0, 3, 2, 5, 0, 3, 5, 1, 4, 6, 2, 4]
  let y2 := if m < 3 then y - 1 else y
  (y2 + y2 / 4 - y2 / 100 + y2 / 400 + t.getD (m - 1) 0 + d) % 7

/-- Model of `formatDate` (source lines 389-397):
`new Date(dateStr + 'T00:00:00').toLocaleDateString('es-ES', {weekday:'long',
year:'numeric', month:'long', day:'numeric'})`, e.g.
`"domingo, 12 de octubre de 2025"`.  A pure function of the date string and
the fixed locale tables; it never reads the clock. -/
def formatDate (dateStr : String) : String :=
  let p := parseDateParts dateStr
  (SPANISH_WEEKDAYS.getD (dayOfWeek p.1 p.2.1 p.2.2) "") ++ ", " ++
    Nat.repr p.2.2 ++ " de " ++ (SPANISH_MONTHS.getD (p.2.1 - 1) "") ++ " de " ++ Nat.repr p.1

/-- Deterministic rendering of a rational pixel value into the markup, the
model of JavaScript number-to-string conversion inside the template literal. -/
def showQ (q : ℚ) : String :=
  if q.den = 1 then Int.repr q.num else Int.repr q.num ++ "/" ++ Nat.repr q.den

/-- The dynamically generated per-status CSS rules
(source lines 735-745): one `.appointment.<status>` and one
`.legend-dot.<status>` rule per entry of `APPOINTMENT_STATES`. -/
def statusCssBlock : String :=
  String.join (APPOINTMENT_STATES.map (fun e =>
    ".appointment." ++ e.1 ++ " \x7b background: " ++ e.2.bgColor ++
      "; border-color: " ++ e.2.borderColor ++ "; color: " ++ e.2.textColor ++ "; \x7d\n" ++
    ".legend-dot." ++ e.1 ++ " \x7b background: " ++ e.2.bgColor ++
      "; border-color: " ++ e.2.borderColor ++ "; \x7d\n"))

/-- The static style sheet of the template (source lines 553-746), with the
two `grid-template-columns` rules interpolating `members.length`, followed by
the dynamic per-status rules. -/
def styleSheet (memberCount : Nat) : String :=
  "* \x7b margin: 0; padding: 0; box-sizing: border-box; \x7d\n" ++
  "body \x7b font-family: -apple-system, BlinkMacSystemFont, \x27Segoe UI\x27, Roboto, sans-serif; background: #f8fafc; padding: 20px; line-height: 1.4; \x7d\n" ++
  ".header \x7b text-align: center; margin-bottom: 30px; background: white; padding: 25px; border-radius: 12px; box-shadow: 0 2px 8px rgba(0,0,0,0.1); \x7d\n" ++
  ".header h1 \x7b color: #1e293b; font-size: 42px; margin-bottom: 8px; font-weight: 700; \x7d\n" ++
  ".header h2 \x7b color: #64748b; font-size: 23px; font-weight: 500; text-transform: capitalize; \x7d\n" ++
  ".calendar-container \x7b background: white; border-radius: 12px; overflow: hidden; box-shadow: 0 4px 12px rgba(0,0,0,0.1); margin-bottom: 20px; \x7d\n" ++
  ".calendar-header \x7b display: grid; grid-template-columns: 100px repeat(" ++ Nat.repr memberCount ++ ", 1fr); border-bottom: 2px solid #cbd5e1; \x7d\n" ++
  ".time-header \x7b background: #f1f5f9; font-weight: 600; color: #475569; text-align: center; padding: 16px 12px; border-right: 1px solid #cbd5e1; font-size: 17px; \x7d\n" ++
  ".member-header \x7b background: #000000; color: white; font-weight: 600; text-align: center; font-size: 21px; padding: 16px 12px; border-right: 1px solid #cbd5e1; \x7d\n" ++
  ".calendar-body \x7b display: grid; grid-template-columns: 100px repeat(" ++ Nat.repr memberCount ++ ", 1fr); position: relative; \x7d\n" ++
  ".time-column \x7b background: #f8fafc; border-right: 1px solid #cbd5e1; \x7d\n" ++
  ".time-slot \x7b height: 60px; border-bottom: 1px solid #cbd5e1; display: flex; align-items: center; justify-content: center; font-size: 17px; font-weight: 500; color: #64748b; \x7d\n" ++
  ".member-column \x7b position: relative; border-right: 1px solid #cbd5e1; background: white; \x7d\n" ++
  ".time-grid-line \x7b position: absolute; left: 0; right: 0; height: 1px; background: #cbd5e1; z-index: 1; \x7d\n" ++
  ".appointment \x7b position: absolute; left: 4px; right: 4px; border-radius: 6px; padding: 6px 8px; font-size: 14px; border: 1px solid; z-index: 10; overflow: hidden; \x7d\n" ++
  ".appointment-overlap \x7b right: 50% !important; margin-right: 2px; \x7d\n" ++
  ".appointment-overlap.column-1 \x7b left: 50% !important; right: 4px !important; margin-left: 2px; margin-right: 0; \x7d\n" ++
  ".appointment-client \x7b font-weight: 600; margin-bottom: 2px; font-size: 16px; white-space: nowrap; overflow: hidden; text-overflow: ellipsis; \x7d\n" ++
  ".appointment-service \x7b font-size: 13px; opacity: 0.9; margin-bottom: 2px; white-space: nowrap; overflow: hidden; text-overflow: ellipsis; \x7d\n" ++
  ".appointment-time \x7b font-size: 12px; opacity: 0.7; font-weight: 500; \x7d\n" ++
  ".legend \x7b display: flex; justify-content: center; gap: 20px; padding: 20px; background: white; border-radius: 8px; box-shadow: 0 2px 4px rgba(0,0,0,0.05); flex-wrap: wrap; \x7d\n" ++
  ".legend-item \x7b display: flex; align-items: center; gap: 8px; font-size: 16px; font-weight: 500; \x7d\n" ++
  ".legend-dot \x7b width: 16px; height: 16px; border-radius: 4px; border: 1px solid; \x7d\n" ++
  statusCssBlock

/-- The time column of half-hour slots (source lines 763-767). -/
def timeColumn (startHour endHour startMinutes : Nat) : String :=
  String.join ((List.range ((endHour - startHour) * 2)).map (fun i =>
    "<div class=\"time-slot\">" ++ minutesToTime (startMinutes + i * 30) ++ "</div>"))

/-- The 30-minute grid lines of one member column (source lines 774-776). -/
def gridLines (startHour endHour : Nat) : String :=
  String.join ((List.range ((endHour - startHour) * 2 + 1)).map (fun i =>
    "<div class=\"time-grid-line\" style=\"top: " ++ Nat.repr (i * 60) ++ "px;\"></div>"))

/-- One appointment block (source lines 779-791): status class, overlap
classes, pixel geometry, and the client/service/time inner lines. -/
def apptDiv (startHour endHour maxColumns : Nat) (p : Placed) : String :=
  let g := apptGeometry startHour endHour p
  "<div class=\"appointment " ++ p.apt.status ++ " " ++
    (if maxColumns > 1 then "appointment-overlap" else "") ++ " " ++
    (if p.column > 0 then "column-" ++ Nat.repr p.column else "") ++
    "\" style=\"top: " ++ showQ g.top ++ "px; height: " ++ showQ g.height ++ "px;\">" ++
    "<div class=\"appointment-client\">" ++ p.apt.client ++ "</div>" ++
    "<div class=\"appointment-service\">" ++ p.apt.service ++ "</div>" ++
    "<div class=\"appointment-time\">" ++ p.apt.start_time ++ " - " ++ p.apt.end_time ++
    "</div></div>"

/-- One member column (source lines 771-794). -/
def memberColumnDiv (startHour endHour : Nat) (pm : ProcessedMember) : String :=
  "<div class=\"member-column\" style=\"height: " ++
    Nat.repr ((endHour - startHour) * 120) ++ "px;\">" ++
    gridLines startHour endHour ++
    String.join (pm.appointments.map (apptDiv startHour endHour pm.maxColumns)) ++
    "</div>"

/-- The legend (source lines 798-805). -/
def legendBlock : String :=
  String.join (APPOINTMENT_STATES.map (fun e =>
    "<div class=\"legend-item\"><div class=\"legend-dot " ++ e.1 ++
      "\"></div><span>" ++ e.2.label ++ "</span></div>"))

/-- Embedding of `generateAgendaHTML(organization, memberGroups, date)`
(source lines 388-811).  The environment `env` carries everything the function
could observe besides its arguments (clock, randomness); the source body never
consults it.  `none` models the `TypeError` thrown when an appointment has no
joined service. -/
def genAgendaHTML (_env : Env) (organization : Organization)
    (memberGroups : List MemberGroup) (date : String) : Option String :=
  (buildMembers memberGroups).map (fun members =>
    let w := windowOf members
    let processed := members.map processMember
    "<!DOCTYPE html><html><head><meta charset=\"UTF-8\"><style>" ++
      styleSheet members.length ++ "</style></head><body>" ++
      "<div class=\"header\"><h1>📅 Agenda Diaria " ++ organization.name ++
      "</h1><h2>" ++ formatDate date ++ "</h2></div>" ++
      "<div class=\"calendar-container\"><div class=\"calendar-header\">" ++
      "<div class=\"time-header\">Hora</div>" ++
      String.join (members.map (fun m =>
        "<div class=\"member-header\">" ++ m.name ++ "</div>")) ++
      "</div><div class=\"calendar-body\"><div class=\"time-column\">" ++
      timeColumn w.startHour w.endHour w.startMinutes ++ "</div>" ++
      String.join (processed.map (memberColumnDiv w.startHour w.endHour)) ++
      "</div></div><div class=\"legend\">" ++ legendBlock ++ "</div></body></html>")

/-- Embedding of the storage key built by `generateAgendaImage` (source line
289): `agenda-${organization.id}-${date}-${Date.now()}.png`.  Unlike the
layout engine, this DOES consult the ambient clock. -/
def imageFileName (env : Env) (organization : Organization) (date : String) : String :=
  "agenda-" ++ organization.id ++ "-" ++ date ++ "-" ++ Nat.repr env.now ++ ".png"

/-- A webhook HTTP response as seen by the handler (`response.ok`,
`response.status`, `response.statusText`). -/
structure WebhookResponse where
  ok : Bool
  status : Nat
  statusText : String
deriving DecidableEq

/-- Outcome of the single `fetch` call to the webhook: either a response
(of any status) or a thrown network error. -/
inductive FetchOutcome where
  | resp (r : WebhookResponse)
  | thrown (msg : String)
deriving DecidableEq

/-- The fields of one `whatsapp_agenda_config` row the per-organization loop
reads when building the webhook payload. -/
structure OrgConfig where
  organization_name : String
  country_code : Option String
  recipient_phone : String
deriving DecidableEq

/-- The per-organization result records pushed onto `results`
(source lines 179-184, 227-232, 235-240, 245-249). -/
inductive OrgResult where
  | imageFailure (organization : String) (error : String) (appointments_count : Nat)
  | success (organization : String) (appointments_count : Nat) (recipient : String)
  | skipped (organization : String) (reason : String) (appointments_count : Nat)
  | errored (organization : String) (error : String)
deriving DecidableEq

/-- Reified outcomes of the effectful steps of one organization's cycle:
the appointments query, `generateAgendaImage` (which may throw, or resolve to
`null` on an internal failure, or to a URL), and the webhook `fetch`. -/
structure OrgEffects where
  appointmentsResult : Except String (List RawAppt)
  imageOutcome : Except String (Option String)
  webhookOutcome : FetchOutcome

/-- Embedding of one iteration of the per-configuration loop of
`exports.handler` (source lines 108-251), as a function of the reified
effect outcomes.  Returns the result record pushed for this organization
(`none` when the loop just `continue`s) and the number of webhook POSTs
performed.  Key control flow: a response with `!response.ok` is only logged
(source lines 219-225) — the `success` record is pushed regardless, and the
webhook is sent exactly once; a thrown `fetch` is caught by the
per-organization `catch` (source lines 243-250) which pushes an error record
but does not abort the run. -/
def processConfig (cfg : OrgConfig) (eff : OrgEffects) : Option OrgResult × Nat :=
  match eff.appointmentsResult with
  | .error _ => (none, 0)
  | .ok appts =>
    if appts.isEmpty then (none, 0)
    else
      match eff.imageOutcome with
      | .error msg =>
        (some (.imageFailure cfg.organization_name
          ("Image generation failed: " ++ msg) appts.length), 0)
      | .ok none =>
        (some (.skipped cfg.organization_name "image_generation_failed" appts.length), 0)
      | .ok (some _) =>
        match eff.webhookOutcome with
        | .thrown msg => (some (.errored cfg.organization_name msg), 1)
        | .resp _ =>
          (some (.success cfg.organization_name appts.length
            (strOr cfg.country_code "+57" ++ cfg.recipient_phone)), 1)

/-- Embedding of the handler's overall run (source lines 44-262): a failed
configuration fetch is rethrown and yields a 500; otherwise every eligible
configuration is processed in order and the handler returns 200 with the
collected results — nothing a single organization's cycle does changes the
status code. -/
def handlerRun (configsResult : Except String (List (OrgConfig × OrgEffects))) :
    Nat × List OrgResult :=
  match configsResult with
  | .error _ => (500, [])
  | .ok work => (200, work.filterMap (fun p => (processConfig p.1 p.2).1))

/-! ## Theorems for the claims -/

/-- C7 counterexample: the claim says `minutesToTime` wraps modulo 24 hours so
that `minutesToTime 1500 = "01:00"`; the source performs no modulo-24
reduction and yields `"25:00"`. -/
theorem minutesToTime_1500_refutes_wrap :
    minutesToTime 1500 = "25:00" ∧ minutesToTime 1500 ≠ "01:00" := by
  constructor
  · decide
  · decide

/-- C7 (amended): `minutesToTime` zero-pads and takes hours by floor division
and minutes by remainder, but performs no modulo-24-hour wrap; it agrees with
the claimed wrapped behaviour exactly when the input is below 1440 minutes. -/
theorem minutesToTime_agrees_below_one_day (m : Nat) (h : m < 1440) :
    minutesToTime m = minutesToTimeWrapped m := by
  have h60 : m / 60 % 24 = m / 60 := Nat.mod_eq_of_lt (by omega)
  simp [minutesToTime, minutesToTimeWrapped, h60]

/-- Witness for the C7 amended theorem at the concrete input 90. -/
theorem minutesToTime_agrees_below_one_day_witness :
    90 < 1440 ∧ minutesToTime 90 = minutesToTimeWrapped 90 :=
  ⟨by decide, minutesToTime_agrees_below_one_day 90 (by decide)⟩

/-- C4 counterexample: the claim says a known service duration `d` yields
`end = start + d`; for a known duration of `0` minutes starting at 10:00 the
source derives `"10:30"` (the 30-minute default), not `"10:00"`. -/
theorem deriveEndTime_zero_duration_refutes_precedence :
    deriveEndTime ⟨"10:00", none, ⟨"Ana", "Diaz"⟩, some ⟨"Corte", some 0⟩, none⟩ = "10:30" ∧
    minutesToTime (timeToMinutes "10:00" + 0) = "10:00" ∧
    ("10:30" : String) ≠ "10:00" := by
  refine ⟨by decide, by decide, by decide⟩

/-- C4 (amended): end-time derivation precedence — a truthy explicit end time
is used verbatim (any duration ignored); otherwise a known NONZERO service
duration `d` yields `end = start + d`; otherwise (no service, no duration, or
a zero duration) `end = start + 30`. -/
theorem deriveEndTime_precedence (apt : RawAppt) :
    (strTruthy apt.end_time = true → deriveEndTime apt = apt.end_time.getD "") ∧
    (∀ sv d, strTruthy apt.end_time = false → apt.services = some sv →
      sv.duration_minutes = some d → d ≠ 0 →
      deriveEndTime apt = minutesToTime (timeToMinutes apt.start_time + d)) ∧
    (strTruthy apt.end_time = false → durTruthy apt = false →
      deriveEndTime apt = minutesToTime (timeToMinutes apt.start_time + 30)) := by
  refine ⟨fun h => by simp [deriveEndTime, h], fun sv d h hsv hd hd0 => ?_, fun h hdt => ?_⟩
  · simp [deriveEndTime, h, hsv, hd, hd0]
  · rcases hsv : apt.services with _ | sv
    · simp [deriveEndTime, h, hsv]
    · rcases hd : sv.duration_minutes with _ | d
      · simp [deriveEndTime, h, hsv, hd]
      · have hz : d = 0 := by simpa [durTruthy, hsv, hd] using hdt
        simp [deriveEndTime, h, hsv, hd, hz]

/-- Witness for the C4 amended theorem: an appointment with explicit end
`"11:15"` and duration 45 keeps `"11:15"`; with only duration 45 from 10:00 it
ends `"10:45"`; with no duration it ends `"10:30"`. -/
theorem deriveEndTime_precedence_witness :
    deriveEndTime ⟨"10:00", some "11:15", ⟨"A", "B"⟩, some ⟨"S", some 45⟩, none⟩ = "11:15" ∧
    deriveEndTime ⟨"10:00", none, ⟨"A", "B"⟩, some ⟨"S", some 45⟩, none⟩ = "10:45" ∧
    deriveEndTime ⟨"10:00", none, ⟨"A", "B"⟩, some ⟨"S", none⟩, none⟩ = "10:30" := by
  refine ⟨?_, ?_, ?_⟩
  · have h := (deriveEndTime_precedence
      ⟨"10:00", some "11:15", ⟨"A", "B"⟩, some ⟨"S", some 45⟩, none⟩).1 (by decide)
    simpa using h
  · have h := (deriveEndTime_precedence
      ⟨"10:00", none, ⟨"A", "B"⟩, some ⟨"S", some 45⟩, none⟩).2.1
      ⟨"S", some 45⟩ 45 (by decide) rfl rfl (by decide)
    rw [h]; decide
  · have h := (deriveEndTime_precedence
      ⟨"10:00", none, ⟨"A", "B"⟩, some ⟨"S", none⟩, none⟩).2.2 (by decide) (by decide)
    rw [h]; decide

/-- C10: an appointment with no truthy explicit end time whose service has
`duration_minutes = 0` gets the fixed 30-minute default, because the source
guard tests the duration for truthiness, and `0` is falsy. -/
theorem deriveEndTime_zero_duration_default (apt : RawAppt) (sv : Service)
    (hend : strTruthy apt.end_time = false)
    (hsv : apt.services = some sv) (hd : sv.duration_minutes = some 0) :
    deriveEndTime apt = minutesToTime (timeToMinutes apt.start_time + 30) := by
  simp [deriveEndTime, hend, hsv, hd]

/-- Witness for C10 at a concrete appointment starting 10:00. -/
theorem deriveEndTime_zero_duration_default_witness :
    strTruthy (none : Option String) = false ∧
    deriveEndTime ⟨"10:00", none, ⟨"Ana", "Diaz"⟩, some ⟨"Corte", some 0⟩, none⟩ =
      minutesToTime (timeToMinutes "10:00" + 30) :=
  ⟨by decide, deriveEndTime_zero_duration_default
    ⟨"10:00", none, ⟨"Ana", "Diaz"⟩, some ⟨"Corte", some 0⟩, none⟩
    ⟨"Corte", some 0⟩ (by decide) rfl rfl⟩

/-- C5 counterexample: the claim says an appointment with status `"foo"`
renders with the `programada` style from the status table; in the source the
status string is kept verbatim (`apt.status || 'programada'` only replaces a
falsy status), the element gets CSS class `foo`, and the generated style sheet
has no rule for it — no table style applies, in particular not `programada`. -/
theorem unknown_status_refutes_programada_fallback :
    apptStatusClass (some "foo") = "foo" ∧
    effectiveStyle (some "foo") = none ∧
    statesLookup "programada" =
      some ⟨"Programada", "#f3f4f6", "#9ca3af", "#374151"⟩ ∧
    effectiveStyle (some "foo") ≠ statesLookup "programada" := by
  refine ⟨by decide, by decide, by decide, by decide⟩

/-- C5 (amended): a missing or empty status defaults to the `programada`
style; a non-empty unknown status is kept verbatim as the element's status
class, so the style applied from the fixed table is whatever the table lookup
of that status gives (`none` — base styling only — for a value like `"foo"`);
the computation is total, so no error is raised in either case. -/
theorem status_style_fallback (s : String) (h : s ≠ "") :
    effectiveStyle none = statesLookup "programada" ∧
    effectiveStyle (some "") = statesLookup "programada" ∧
    apptStatusClass (some s) = s ∧
    effectiveStyle (some s) = statesLookup s := by
  refine ⟨by decide, by decide, ?_, ?_⟩
  · simp [apptStatusClass, strOr, h]
  · simp [effectiveStyle, apptStatusClass, strOr, h]

/-- Witness for the C5 amended theorem at the concrete status `"foo"`. -/
theorem status_style_fallback_witness :
    ("foo" : String) ≠ "" ∧
    (effectiveStyle none = statesLookup "programada" ∧
     effectiveStyle (some "") = statesLookup "programada" ∧
     apptStatusClass (some "foo") = "foo" ∧
     effectiveStyle (some "foo") = statesLookup "foo") :=
  ⟨by decide, status_style_fallback "foo" (by decide)⟩

/-- C6: emitted pixel geometry.  For any window with `startHour < endHour`
the source formulas `top = ((startMinutes - startHour*60)/totalMinutes) * trackHeight`
and `height = (duration/totalMinutes) * trackHeight` with
`totalMinutes = (endHour - startHour) * 60` and
`trackHeight = (endHour - startHour) * 120` reduce to exactly 2 pixels per
minute; in particular for the claimed example — a 600-minute window (track
1200px) and a 60-minute appointment starting 120 minutes into the window —
`top = 240` and `height = 120`. -/
theorem apptGeometry_proportional (sh eh : Nat) (p : Placed) (h : sh < eh) :
    (apptGeometry sh eh p).top = ((p.startMinutes : ℚ) - (sh : ℚ) * 60) * 2 ∧
    (apptGeometry sh eh p).height = (p.duration : ℚ) * 2 ∧
    (apptGeometry 8 18 ⟨⟨"10:00", "11:00", "c", "s", "programada"⟩, 0, 600, 660, 60⟩).top
      = 240 ∧
    (apptGeometry 8 18 ⟨⟨"10:00", "11:00", "c", "s", "programada"⟩, 0, 600, 660, 60⟩).height
      = 120 := by
  have hq : ((eh : ℚ) - (sh : ℚ)) ≠ 0 := by
    have : (sh : ℚ) < (eh : ℚ) := by exact_mod_cast h
    intro hc
    nlinarith
  refine ⟨?_, ?_, ?_, ?_⟩
  · show (((p.startMinutes : ℚ) - (sh : ℚ) * 60) / (((eh : ℚ) - (sh : ℚ)) * 60)) *
      (((eh : ℚ) - (sh : ℚ)) * 120) = ((p.startMinutes : ℚ) - (sh : ℚ) * 60) * 2
    field_simp
    ring
  · show ((p.duration : ℚ) / (((eh : ℚ) - (sh : ℚ)) * 60)) *
      (((eh : ℚ) - (sh : ℚ)) * 120) = (p.duration : ℚ) * 2
    field_simp
    ring
  · show (((600 : ℚ) - (8 : ℚ) * 60) / (((18 : ℚ) - (8 : ℚ)) * 60)) *
      (((18 : ℚ) - (8 : ℚ)) * 120) = 240
    norm_num
  · show (((60 : ℤ) : ℚ) / (((18 : ℚ) - (8 : ℚ)) * 60)) *
      (((18 : ℚ) - (8 : ℚ)) * 120) = 120
    norm_num

/-- Witness for C6 at the concrete window 8-18 and the example appointment. -/
theorem apptGeometry_proportional_witness :
    8 < 18 ∧
    ((apptGeometry 8 18 ⟨⟨"10:00", "11:00", "c", "s", "programada"⟩, 0, 600, 660, 60⟩).top
        = (((600 : Nat) : ℚ) - ((8 : Nat) : ℚ) * 60) * 2 ∧
      (apptGeometry 8 18 ⟨⟨"10:00", "11:00", "c", "s", "programada"⟩, 0, 600, 660, 60⟩).height
        = (((60 : Int) : ℚ)) * 2 ∧
      (apptGeometry 8 18 ⟨⟨"10:00", "11:00", "c", "s", "programada"⟩, 0, 600, 660, 60⟩).top
        = 240 ∧
      (apptGeometry 8 18 ⟨⟨"10:00", "11:00", "c", "s", "programada"⟩, 0, 600, 660, 60⟩).height
        = 120) :=
  ⟨by decide,
    apptGeometry_proportional 8 18
      ⟨⟨"10:00", "11:00", "c", "s", "programada"⟩, 0, 600, 660, 60⟩ (by decide)⟩

/-- C8: the layout engine is a pure, deterministic function of
(organization, grouped appointments, date): its embedding is handed the whole
ambient environment (clock, random seed) and never consults it, so two
invocations with identical arguments produce identical markup regardless of
when they run. -/
theorem genAgendaHTML_deterministic (env1 env2 : Env) (org : Organization)
    (groups : List MemberGroup) (date : String) :
    genAgendaHTML env1 org groups date = genAgendaHTML env2 org groups date := rfl

/-- C9: when the image was generated successfully, the webhook is POSTed
exactly once and — whatever the response, in particular a non-2xx one — the
organization's result record is `success` and the handler run still returns
status code 200.  No retry, no escalation. -/
theorem webhook_failure_logged_only (cfg : OrgConfig) (eff : OrgEffects)
    (appts : List RawAppt) (url : String) (r : WebhookResponse)
    (ha : eff.appointmentsResult = .ok appts) (hne : appts ≠ [])
    (hi : eff.imageOutcome = .ok (some url)) (hw : eff.webhookOutcome = .resp r) :
    processConfig cfg eff =
      (some (.success cfg.organization_name appts.length
        (strOr cfg.country_code "+57" ++ cfg.recipient_phone)), 1) ∧
    (handlerRun (.ok [(cfg, eff)])).1 = 200 := by
  have hp : processConfig cfg eff =
      (some (.success cfg.organization_name appts.length
        (strOr cfg.country_code "+57" ++ cfg.recipient_phone)), 1) := by
    unfold processConfig
    rw [ha, hi, hw]
    simp [List.isEmpty_iff, hne]
  exact ⟨hp, rfl⟩

/-- Witness for C9: a concrete cycle whose webhook answers 500
(`ok = false`) still yields a `success` record, one single POST, and a
200 handler run. -/
theorem webhook_failure_logged_only_witness :
    ([⟨"10:00", none, ⟨"Ana", "Diaz"⟩, some ⟨"Corte", some 45⟩, none⟩] : List RawAppt) ≠ [] ∧
    processConfig ⟨"Skytide Org", some "+57", "3001234567"⟩
      (OrgEffects.mk (.ok [⟨"10:00", none, ⟨"Ana", "Diaz"⟩, some ⟨"Corte", some 45⟩, none⟩])
        (.ok (some "https://img")) (.resp ⟨false, 500, "Internal Server Error"⟩)) =
      (some (.success "Skytide Org" 1 (strOr (some "+57") "+57" ++ "3001234567")), 1) ∧
    (handlerRun (.ok [(⟨"Skytide Org", some "+57", "3001234567"⟩,
      OrgEffects.mk (.ok [⟨"10:00", none, ⟨"Ana", "Diaz"⟩, some ⟨"Corte", some 45⟩, none⟩])
        (.ok (some "https://img")) (.resp ⟨false, 500, "Internal Server Error"⟩))])).1 =
      200 := by
  have h := webhook_failure_logged_only
    ⟨"Skytide Org", some "+57", "3001234567"⟩
    (OrgEffects.mk (.ok [⟨"10:00", none, ⟨"Ana", "Diaz"⟩, some ⟨"Corte", some 45⟩, none⟩])
      (.ok (some "https://img")) (.resp ⟨false, 500, "Internal Server Error"⟩))
    [⟨"10:00", none, ⟨"Ana", "Diaz"⟩, some ⟨"Corte", some 45⟩, none⟩]
    "https://img" ⟨false, 500, "Internal Server Error"⟩ rfl (by decide) rfl rfl
  exact ⟨by decide, h.1, h.2⟩

/-! ## View-window lemmas (C3) -/

/-- All appointments of all members, in scan order. -/
def allAppts (members : List MemberRec) : List Appt :=
  members.flatMap (·.appointments)

theorem scanWindow_flatten (members : List MemberRec) :
    scanWindow members = (allAppts members).foldl scanAcc (24 * 60, 0) := by
  unfold scanWindow allAppts
  generalize (24 * 60, 0) = acc
  induction members generalizing acc with
  | nil => rfl
  | cons m rest ih =>
    simp only [List.foldl_cons, List.flatMap_cons, List.foldl_append]
    exact ih _

theorem scanAcc_fst (acc : Nat × Nat) (a : Appt) :
    (scanAcc acc a).1 = min acc.1 (timeToMinutes a.start_time) := by
  unfold scanAcc
  dsimp only
  split <;> omega

theorem scanAcc_snd (acc : Nat × Nat) (a : Appt) :
    (scanAcc acc a).2 = max acc.2 (timeToMinutes a.end_time) := by
  unfold scanAcc
  dsimp only
  split <;> omega

theorem foldl_scanAcc_fst (l : List Appt) (acc : Nat × Nat) :
    (l.foldl scanAcc acc).1 =
      (l.map (fun a => timeToMinutes a.start_time)).foldl min acc.1 := by
  induction l generalizing acc with
  | nil => rfl
  | cons a rest ih =>
    simp only [List.foldl_cons, List.map_cons]
    rw [ih, scanAcc_fst]

theorem foldl_scanAcc_snd (l : List Appt) (acc : Nat × Nat) :
    (l.foldl scanAcc acc).2 =
      (l.map (fun a => timeToMinutes a.end_time)).foldl max acc.2 := by
  induction l generalizing acc with
  | nil => rfl
  | cons a rest ih =>
    simp only [List.foldl_cons, List.map_cons]
    rw [ih, scanAcc_snd]

theorem foldl_min_le_init (l : List Nat) (c : Nat) : l.foldl min c ≤ c := by
  induction l generalizing c with
  | nil => exact Nat.le_refl _
  | cons y rest ih => exact Nat.le_trans (ih (min c y)) (Nat.min_le_left _ _)

theorem foldl_min_le_mem (l : List Nat) (c x : Nat) (hx : x ∈ l) :
    l.foldl min c ≤ x := by
  induction l generalizing c with
  | nil => cases hx
  | cons y rest ih =>
    rcases List.mem_cons.mp hx with h | h
    · subst h
      exact Nat.le_trans (foldl_min_le_init rest (min c x)) (Nat.min_le_right _ _)
    · exact ih (min c y) h

theorem le_foldl_min (l : List Nat) (c m : Nat) (hc : m ≤ c) (hl : ∀ x ∈ l, m ≤ x) :
    m ≤ l.foldl min c := by
  induction l generalizing c with
  | nil => exact hc
  | cons y rest ih =>
    exact ih (min c y) (Nat.le_min.mpr ⟨hc, hl y (List.mem_cons_self y rest)⟩)
      fun x hx => hl x (List.mem_cons_of_mem y hx)

theorem foldl_max_ge_init (l : List Nat) (c : Nat) : c ≤ l.foldl max c := by
  induction l generalizing c with
  | nil => exact Nat.le_refl _
  | cons y rest ih => exact Nat.le_trans (Nat.le_max_left _ _) (ih (max c y))

theorem foldl_max_ge_mem (l : List Nat) (c x : Nat) (hx : x ∈ l) :
    x ≤ l.foldl max c := by
  induction l generalizing c with
  | nil => cases hx
  | cons y rest ih =>
    rcases List.mem_cons.mp hx with h | h
    · subst h
      exact Nat.le_trans (Nat.le_max_right c x) (foldl_max_ge_init rest (max c x))
    · exact ih (max c y) h

theorem foldl_max_le (l : List Nat) (c m : Nat) (hc : c ≤ m) (hl : ∀ x ∈ l, x ≤ m) :
    l.foldl max c ≤ m := by
  induction l generalizing c with
  | nil => exact hc
  | cons y rest ih =>
    exact ih (max c y) (Nat.max_le.mpr ⟨hc, hl y (List.mem_cons_self y rest)⟩)
      fun x hx => hl x (List.mem_cons_of_mem y hx)

/-- C3: the view window.  With no appointments at all the window is exactly
`startHour = 8`, `endHour = 18`, `totalMinutes = 600`; otherwise, for `m` the
minimum derived start and `M` the maximum derived end (in minutes, with
well-formed sub-24h start times), `startHour = max(0, m-60) / 60` (floor),
`endHour = ceil(min(1440, M+60) / 60)` and `totalMinutes = (endHour - startHour) * 60`.
The claimed examples: a single appointment 07:30-08:00 yields `startHour = 6`,
and one ending 23:45 yields `endHour = 24`. -/
theorem window_default_and_padding (members members0 : List MemberRec) (m M : Nat)
    (h0 : allAppts members0 = [])
    (hwf : ∀ a ∈ allAppts members, timeToMinutes a.start_time < 1440)
    (hm : m ∈ (allAppts members).map (fun a => timeToMinutes a.start_time))
    (hml : ∀ x ∈ (allAppts members).map (fun a => timeToMinutes a.start_time), m ≤ x)
    (hM : M ∈ (allAppts members).map (fun a => timeToMinutes a.end_time))
    (hMg : ∀ x ∈ (allAppts members).map (fun a => timeToMinutes a.end_time), x ≤ M) :
    windowOf members0 = ⟨8, 18, 600, 480⟩ ∧
    (windowOf members).startHour = max 0 (m - 60) / 60 ∧
    (windowOf members).endHour = (min 1440 (M + 60) + 59) / 60 ∧
    (windowOf members).totalMinutes =
      (((windowOf members).endHour : Int) - ((windowOf members).startHour : Int)) * 60 ∧
    (windowOf [⟨"u", "n", [⟨"07:30", "08:00", "c", "s", "programada"⟩]⟩]).startHour = 6 ∧
    (windowOf [⟨"u", "n", [⟨"23:00", "23:45", "c", "s", "programada"⟩]⟩]).endHour = 24 := by
  have hmlt : m < 1440 := by
    obtain ⟨a, ha, hae⟩ := List.mem_map.mp hm
    exact hae ▸ hwf a ha
  have h1 : (scanWindow members).1 = m := by
    rw [scanWindow_flatten, foldl_scanAcc_fst]
    exact Nat.le_antisymm (foldl_min_le_mem _ _ _ hm)
      (le_foldl_min _ _ _ (by omega) hml)
  have h2 : (scanWindow members).2 = M := by
    rw [scanWindow_flatten, foldl_scanAcc_snd]
    exact Nat.le_antisymm (foldl_max_le _ _ _ (Nat.zero_le _) hMg)
      (foldl_max_ge_mem _ _ _ hM)
  have hscan0 : scanWindow members0 = (24 * 60, 0) := by
    rw [scanWindow_flatten, h0]
    rfl
  refine ⟨?_, ?_, ?_, ?_, by decide, by decide⟩
  · simp only [windowOf, hscan0]
    norm_num
  · simp only [windowOf, h1, h2]
    rw [if_neg (by omega)]
    omega
  · simp only [windowOf, h1, h2]
    rw [if_neg (by omega)]
  · rfl

/-- Witness for C3 at a one-appointment schedule 09:00-10:00 (minimum start
540, maximum end 600) and the empty schedule. -/
theorem window_default_and_padding_witness :
    allAppts [] = [] ∧
    timeToMinutes "09:00" < 1440 ∧
    windowOf [] = ⟨8, 18, 600, 480⟩ ∧
    (windowOf [⟨"u", "n", [⟨"09:00", "10:00", "c", "s", "programada"⟩]⟩]).startHour =
      max 0 (540 - 60) / 60 ∧
    (windowOf [⟨"u", "n", [⟨"09:00", "10:00", "c", "s", "programada"⟩]⟩]).endHour =
      (min 1440 (600 + 60) + 59) / 60 := by
  have h := window_default_and_padding
    [⟨"u", "n", [⟨"09:00", "10:00", "c", "s", "programada"⟩]⟩] [] 540 600
    rfl (by decide) (by decide) (by decide) (by decide) (by decide)
  exact ⟨rfl, by decide, h.1, h.2.1, h.2.2.1⟩

/-! ## Column-assignment lemmas (C1, C2) -/

/-- Whether appointment `a` is active at instant `t` (half-open interval
`[start, end)` in derived minutes). -/
def activeB (t : Nat) (a : Appt) : Bool :=
  decide (timeToMinutes a.start_time ≤ t) && decide (t < timeToMinutes a.end_time)

/-- Number of the appointments of `l` simultaneously active at instant `t`. -/
def activeAt (l : List Appt) (t : Nat) : Nat :=
  (l.filter (activeB t)).length

/-- The largest derived end minute of `l`. -/
def maxEndOf (l : List Appt) : Nat :=
  (l.map (fun a => timeToMinutes a.end_time)).foldr max 0

/-- Modelled from the claim's words: the clique number of the interval graph —
the maximum, over all instants, of the number of simultaneously active
appointments.  Beyond `maxEndOf l` nothing is active
(`activeAt_le_cliqueNumber` makes this sup over ALL instants precise), so
scanning instants `0 .. maxEndOf l` suffices. -/
def cliqueNumber (l : List Appt) : Nat :=
  ((List.range (maxEndOf l + 1)).map (activeAt l)).foldr max 0

theorem foldr_max_ge_mem (l : List Nat) (x : Nat) (hx : x ∈ l) : x ≤ l.foldr max 0 := by
  induction l with
  | nil => cases hx
  | cons y rest ih =>
    rcases List.mem_cons.mp hx with h | h
    · exact h ▸ Nat.le_max_left _ _
    · exact Nat.le_trans (ih h) (Nat.le_max_right _ _)

theorem foldr_max_le (l : List Nat) (m : Nat) (h : ∀ x ∈ l, x ≤ m) : l.foldr max 0 ≤ m := by
  induction l with
  | nil => exact Nat.zero_le m
  | cons y rest ih =>
    exact Nat.max_le.mpr ⟨h y (List.mem_cons_self y rest),
      ih fun x hx => h x (List.mem_cons_of_mem y hx)⟩

theorem foldr_max_mem (l : List Nat) (h : l ≠ []) : l.foldr max 0 ∈ l := by
  induction l with
  | nil => exact absurd rfl h
  | cons y rest ih =>
    rcases Decidable.em (rest = []) with hr | hr
    · subst hr
      simp
    · rcases Nat.le_total y (rest.foldr max 0) with hle | hle
      · have heq : List.foldr max 0 (y :: rest) = rest.foldr max 0 := by
          simp only [List.foldr_cons]
          exact Nat.max_eq_right hle
        rw [heq]
        exact List.mem_cons_of_mem y (ih hr)
      · have heq : List.foldr max 0 (y :: rest) = y := by
          simp only [List.foldr_cons]
          exact Nat.max_eq_left hle
        rw [heq]
        exact List.mem_cons_self y rest

theorem activeAt_le_cliqueNumber (l : List Appt) (t : Nat) :
    activeAt l t ≤ cliqueNumber l := by
  by_cases ht : t ≤ maxEndOf l
  · exact foldr_max_ge_mem _ _
      (List.mem_map.mpr ⟨t, List.mem_range.mpr (by omega), rfl⟩)
  · have hz : activeAt l t = 0 := by
      unfold activeAt
      rw [List.length_eq_zero, List.filter_eq_nil_iff]
      intro a ha
      have hb : timeToMinutes a.end_time ≤ maxEndOf l :=
        foldr_max_ge_mem _ _ (List.mem_map.mpr ⟨a, ha, rfl⟩)
      simp only [activeB, Bool.and_eq_true, decide_eq_true_eq, not_and]
      omega
    omega

/-- The spec of the fuelled column search: if a free column exists within the
fuel, the search returns the LEAST free column at or above `c`. -/
theorem findColAux_spec (placed : List Placed) (s e : Nat) :
    ∀ fuel c, (∃ d, d < fuel ∧ conflictB placed (c + d) s e = false) →
      conflictB placed (findColAux placed s e fuel c) s e = false ∧
      c ≤ findColAux placed s e fuel c ∧
      ∀ k, c ≤ k → k < findColAux placed s e fuel c → conflictB placed k s e = true := by
  intro fuel
  induction fuel with
  | zero =>
    intro c hex
    obtain ⟨d, hd, _⟩ := hex
    omega
  | succ n ih =>
    intro c hex
    obtain ⟨d, hd, hfree⟩ := hex
    simp only [findColAux]
    by_cases hc : conflictB placed c s e = true
    · rw [if_pos hc]
      have hd0 : d ≠ 0 := by
        intro h
        rw [h, Nat.add_zero] at hfree
        rw [hfree] at hc
        cases hc
      have hex2 : ∃ d2, d2 < n ∧ conflictB placed (c + 1 + d2) s e = false :=
        ⟨d - 1, by omega, by
          have harith : c + 1 + (d - 1) = c + d := by omega
          rw [harith]
          exact hfree⟩
      obtain ⟨hfree2, hle2, hmin2⟩ := ih (c + 1) hex2
      refine ⟨hfree2, by omega, fun k hk1 hk2 => ?_⟩
      rcases Nat.eq_or_lt_of_le hk1 with heq | hlt
      · exact heq ▸ hc
      · exact hmin2 k hlt hk2
    · rw [if_neg hc]
      have hcf : conflictB placed c s e = false := by simpa using hc
      exact ⟨hcf, Nat.le_refl _, fun k hk1 hk2 => absurd hk2 (Nat.not_lt.mpr hk1)⟩

/-- Pigeonhole: among the columns `0 .. placed.length` at least one is free,
because each conflicting column is occupied by a distinct placed record. -/
theorem exists_free_col (placed : List Placed) (s e : Nat) :
    ∃ d, d < placed.length + 1 ∧ conflictB placed (0 + d) s e = false := by
  by_contra hcon
  push_neg at hcon
  have hsub : (List.range (placed.length + 1)) ⊆ placed.map (·.column) := by
    intro d hd
    have hd2 : d < placed.length + 1 := List.mem_range.mp hd
    have hc : conflictB placed (0 + d) s e = true := by
      have := hcon d hd2
      exact eq_true_of_ne_false this
    obtain ⟨ex, hex, hexc⟩ := List.any_eq_true.mp hc
    have hcol : ex.column = d := by
      have := (Bool.and_eq_true _ _).mp hexc
      simpa using this.1
    exact List.mem_map.mpr ⟨ex, hex, hcol⟩
  have hlen := (List.subperm_of_subset (List.nodup_range _) hsub).length_le
  simp only [List.length_range, List.length_map] at hlen
  omega

/-- The chosen column is free, and every smaller column conflicts. -/
theorem findCol_spec (placed : List Placed) (s e : Nat) :
    conflictB placed (findCol placed s e) s e = false ∧
    ∀ k, k < findCol placed s e → conflictB placed k s e = true := by
  obtain ⟨hfree, _, hmin⟩ :=
    findColAux_spec placed s e (placed.length + 1) 0 (exists_free_col placed s e)
  exact ⟨hfree, fun k hk => hmin k (Nat.zero_le k) hk⟩

theorem assignLoop_map_apt (l : List Appt) :
    ∀ acc, (assignLoop acc l).map (·.apt) = acc.map (·.apt) ++ l := by
  induction l with
  | nil => intro acc; simp [assignLoop]
  | cons a rest ih =>
    intro acc
    show (assignLoop (acc ++ [newPlaced acc a]) rest).map (·.apt) = _
    rw [ih]
    simp [newPlaced]

theorem columnPass_map_apt (l : List Appt) :
    (columnPass l).map (·.apt) = sortByStart l := by
  have h := assignLoop_map_apt (sortByStart l) []
  simpa [columnPass] using h

/-- The non-overlap guarantee of C2, stated with the claim's overlap test:
same column implies NOT (`s1 < e2` and `s2 < e1`). -/
def noOv (p q : Placed) : Prop :=
  p.column = q.column →
    ¬(timeToMinutes p.apt.start_time < timeToMinutes q.apt.end_time ∧
      timeToMinutes q.apt.start_time < timeToMinutes p.apt.end_time)

theorem conflictB_false_all (placed : List Placed) (c s e : Nat)
    (h : conflictB placed c s e = false) :
    ∀ ex ∈ placed, ex.column = c →
      e ≤ timeToMinutes ex.apt.start_time ∨ timeToMinutes ex.apt.end_time ≤ s := by
  intro ex hex hcol
  have hall := List.any_eq_false.mp h ex hex
  rw [Bool.and_eq_true, not_and] at hall
  have hov := hall (by simpa using hcol)
  have hovf : overlapB s e (timeToMinutes ex.apt.start_time)
      (timeToMinutes ex.apt.end_time) = false := by simpa using hov
  unfold overlapB at hovf
  simp only [Bool.not_eq_false', Bool.or_eq_true, decide_eq_true_eq] at hovf
  rcases hovf with h1 | h1
  · exact Or.inl h1
  · exact Or.inr h1

theorem assignLoop_sound (l : List Appt) :
    ∀ acc, acc.Pairwise noOv → (assignLoop acc l).Pairwise noOv := by
  induction l with
  | nil => intro acc h; exact h
  | cons a rest ih =>
    intro acc hacc
    show (assignLoop (acc ++ [newPlaced acc a]) rest).Pairwise noOv
    apply ih
    rw [List.pairwise_append]
    refine ⟨hacc, List.pairwise_singleton _ _, ?_⟩
    intro x hx y hy
    have hy2 : y = newPlaced acc a := by simpa using hy
    subst hy2
    intro hcol
    have hfree := (findCol_spec acc (timeToMinutes a.start_time)
      (timeToMinutes a.end_time)).1
    have := conflictB_false_all acc _ _ _ hfree x hx (by simpa [newPlaced] using hcol)
    simp only [newPlaced]
    omega

theorem columnPass_sound (l : List Appt) : (columnPass l).Pairwise noOv :=
  assignLoop_sound (sortByStart l) [] List.Pairwise.nil

/-- Every member of `columnPass l` came from `l`. -/
theorem columnPass_apt_mem (l : List Appt) (p : Placed) (hp : p ∈ columnPass l) :
    p.apt ∈ l := by
  have h1 : p.apt ∈ (columnPass l).map (·.apt) := List.mem_map.mpr ⟨p, hp, rfl⟩
  rw [columnPass_map_apt] at h1
  exact (List.perm_insertionSort rStart l).mem_iff.mp h1

theorem activeAt_columnPass (l : List Appt) (t : Nat) :
    ((columnPass l).filter (fun p => activeB t p.apt)).length = activeAt l t := by
  have h1 : ((columnPass l).map (·.apt)).filter (activeB t) =
      ((columnPass l).filter (fun p => activeB t p.apt)).map (·.apt) :=
    List.filter_map (·.apt) (columnPass l)
  have h2 : activeAt (sortByStart l) t = activeAt l t := by
    unfold activeAt sortByStart
    exact ((List.perm_insertionSort rStart l).filter _).length_eq
  calc ((columnPass l).filter (fun p => activeB t p.apt)).length
      = (((columnPass l).filter (fun p => activeB t p.apt)).map (·.apt)).length :=
        (List.length_map _ _).symm
    _ = (((columnPass l).map (·.apt)).filter (activeB t)).length := by rw [h1]
    _ = activeAt (sortByStart l) t := by rw [columnPass_map_apt]; rfl
    _ = activeAt l t := h2

/-- Part one of C1: at any instant, the active placed appointments occupy
pairwise distinct columns, so no instant sees more active appointments than
there are columns. -/
theorem activeAt_le_maxColumns (l : List Appt) (t : Nat) :
    activeAt l t ≤ maxColumnsOf l := by
  rw [← activeAt_columnPass]
  have hpw : ((columnPass l).filter (fun p => activeB t p.apt)).Pairwise noOv :=
    (columnPass_sound l).filter _
  have hnd : ((((columnPass l).filter (fun p => activeB t p.apt))).map (·.column)).Nodup := by
    show (((columnPass l).filter (fun p => activeB t p.apt)).map (·.column)).Pairwise
      (fun a b => a ≠ b)
    rw [List.pairwise_map]
    refine List.Pairwise.imp_of_mem ?_ hpw
    intro p q hp hq hno hcol
    have hpa := (List.mem_filter.mp hp).2
    have hqa := (List.mem_filter.mp hq).2
    simp only [activeB, Bool.and_eq_true, decide_eq_true_eq] at hpa hqa
    exact hno hcol ⟨by omega, by omega⟩
  have hsub : (((columnPass l).filter (fun p => activeB t p.apt)).map (·.column)) ⊆
      List.range (maxColumnsOf l) := by
    intro c hc
    obtain ⟨p, hp, hpc⟩ := List.mem_map.mp hc
    have hp2 : p ∈ columnPass l := List.mem_of_mem_filter hp
    have hle : p.column ≤ ((columnPass l).map (·.column)).foldr max 0 :=
      foldr_max_ge_mem _ _ (List.mem_map.mpr ⟨p, hp2, rfl⟩)
    refine List.mem_range.mpr ?_
    unfold maxColumnsOf
    omega
  have hlen := (List.subperm_of_subset hnd hsub).length_le
  simp only [List.length_map, List.length_range] at hlen
  exact hlen

/-- Greedy invariant: every placed appointment with column `k+j > k` has, for
each smaller column `k`, an earlier-starting placed appointment in column `k`
overlapping it. -/
theorem assignLoop_witness_inv (l : List Appt) :
    ∀ acc,
      (∀ p ∈ acc, ∀ a ∈ l,
        timeToMinutes p.apt.start_time ≤ timeToMinutes a.start_time) →
      l.Sorted rStart →
      (∀ p ∈ acc, ∀ k, k < p.column → ∃ ex ∈ acc, ex.column = k ∧
        timeToMinutes ex.apt.start_time ≤ timeToMinutes p.apt.start_time ∧
        timeToMinutes ex.apt.start_time < timeToMinutes p.apt.end_time ∧
        timeToMinutes p.apt.start_time < timeToMinutes ex.apt.end_time) →
      (∀ p ∈ assignLoop acc l, ∀ k, k < p.column → ∃ ex ∈ assignLoop acc l, ex.column = k ∧
        timeToMinutes ex.apt.start_time ≤ timeToMinutes p.apt.start_time ∧
        timeToMinutes ex.apt.start_time < timeToMinutes p.apt.end_time ∧
        timeToMinutes p.apt.start_time < timeToMinutes ex.apt.end_time) := by
  induction l with
  | nil => intro acc _ _ hinv; exact hinv
  | cons a rest ih =>
    intro acc hstarts hsort hinv
    have hsort2 := (List.sorted_cons.mp hsort).2
    have hhead := (List.sorted_cons.mp hsort).1
    show ∀ p ∈ assignLoop (acc ++ [newPlaced acc a]) rest, _
    apply ih (acc ++ [newPlaced acc a])
    · intro p hp b hb
      rcases List.mem_append.mp hp with h | h
      · exact hstarts p h b (List.mem_cons_of_mem a hb)
      · have hpn : p = newPlaced acc a := by simpa using h
        subst hpn
        exact hhead b hb
    · exact hsort2
    · intro p hp k hk
      rcases List.mem_append.mp hp with h | h
      · obtain ⟨ex, hex, hrest⟩ := hinv p h k hk
        exact ⟨ex, List.mem_append_left _ hex, hrest⟩
      · have hpn : p = newPlaced acc a := by simpa using h
        subst hpn
        have hk2 : k < findCol acc (timeToMinutes a.start_time) (timeToMinutes a.end_time) := by
          simpa [newPlaced] using hk
        have hconf := (findCol_spec acc (timeToMinutes a.start_time)
          (timeToMinutes a.end_time)).2 k hk2
        obtain ⟨ex, hex, hexc⟩ := List.any_eq_true.mp hconf
        rw [Bool.and_eq_true] at hexc
        have hcol : ex.column = k := by simpa using hexc.1
        have hov := hexc.2
        unfold overlapB at hov
        simp only [Bool.not_eq_true', Bool.or_eq_false_iff, decide_eq_false_iff_not] at hov
        refine ⟨ex, List.mem_append_left _ hex, hcol, ?_, ?_, ?_⟩
        · exact hstarts ex hex a (List.mem_cons_self a rest)
        · simp only [newPlaced]
          omega
        · simp only [newPlaced]
          omega

theorem columnPass_max_witness (l : List Appt) :
    ∀ p ∈ columnPass l, ∀ k, k < p.column → ∃ ex ∈ columnPass l, ex.column = k ∧
      timeToMinutes ex.apt.start_time ≤ timeToMinutes p.apt.start_time ∧
      timeToMinutes ex.apt.start_time < timeToMinutes p.apt.end_time ∧
      timeToMinutes p.apt.start_time < timeToMinutes ex.apt.end_time :=
  assignLoop_witness_inv (sortByStart l) []
    (by intro p hp; cases hp)
    (List.sorted_insertionSort rStart l)
    (by intro p hp; cases hp)

/-- Part two of C1: the greedy pass never uses more columns than the busiest
instant requires. -/
theorem maxColumns_le_cliqueNumber (l : List Appt) (hne : l ≠ [])
    (hwf : ∀ a ∈ l, timeToMinutes a.start_time < timeToMinutes a.end_time) :
    maxColumnsOf l ≤ cliqueNumber l := by
  have hFne : columnPass l ≠ [] := by
    intro h
    have hmap := columnPass_map_apt l
    rw [h] at hmap
    have hlen := congrArg List.length hmap
    have hperm := (List.perm_insertionSort rStart l).length_eq
    simp only [List.map_nil, List.length_nil, sortByStart] at hlen hperm
    exact hne (List.length_eq_zero.mp (by omega))
  have hmem : (((columnPass l).map (·.column)).foldr max 0) ∈
      (columnPass l).map (·.column) :=
    foldr_max_mem _ (by simpa using hFne)
  obtain ⟨p, hp, hpc⟩ := List.mem_map.mp hmem
  have hwfp : timeToMinutes p.apt.start_time < timeToMinutes p.apt.end_time :=
    hwf p.apt (columnPass_apt_mem l p hp)
  have hsub : List.range (maxColumnsOf l) ⊆
      ((columnPass l).filter
        (fun q => activeB (timeToMinutes p.apt.start_time) q.apt)).map (·.column) := by
    intro k hk
    have hk2 : k < maxColumnsOf l := List.mem_range.mp hk
    have hkle : k ≤ p.column := by
      unfold maxColumnsOf at hk2
      omega
    rcases Nat.lt_or_ge k p.column with hklt | hkge
    · obtain ⟨ex, hexF, hexc, hexs, hexo1, hexo2⟩ := columnPass_max_witness l p hp k hklt
      refine List.mem_map.mpr ⟨ex, List.mem_filter.mpr ⟨hexF, ?_⟩, hexc⟩
      simp only [activeB, Bool.and_eq_true, decide_eq_true_eq]
      exact ⟨hexs, hexo2⟩
    · have hk3 : k = p.column := by omega
      refine List.mem_map.mpr ⟨p, List.mem_filter.mpr ⟨hp, ?_⟩, hk3.symm⟩
      simp only [activeB, Bool.and_eq_true, decide_eq_true_eq]
      exact ⟨Nat.le_refl _, hwfp⟩
  have hlen := (List.subperm_of_subset (List.nodup_range _) hsub).length_le
  simp only [List.length_range, List.length_map] at hlen
  calc maxColumnsOf l
      ≤ ((columnPass l).filter
          (fun q => activeB (timeToMinutes p.apt.start_time) q.apt)).length := hlen
    _ = activeAt l (timeToMinutes p.apt.start_time) := activeAt_columnPass l _
    _ ≤ cliqueNumber l := activeAt_le_cliqueNumber l _

/-- C2: column-assignment soundness.  For every member appointment list, any
two placed appointments sharing a column do NOT overlap under the half-open
test (`s1 < e2 AND s2 < e1`); moreover the claim's two examples hold —
back-to-back `[9:00,9:30)` / `[9:30,10:00)` share column 0, while overlapping
`[9:00,9:30)` / `[9:15,9:45)` receive columns 0 and 1. -/
theorem column_assignment_sound (l : List Appt) :
    (columnPass l).Pairwise noOv ∧
    (columnPass [⟨"09:00", "09:30", "c1", "s", "programada"⟩,
      ⟨"09:30", "10:00", "c2", "s", "programada"⟩]).map (·.column) = [0, 0] ∧
    (columnPass [⟨"09:00", "09:30", "c1", "s", "programada"⟩,
      ⟨"09:15", "09:45", "c2", "s", "programada"⟩]).map (·.column) = [0, 1] :=
  ⟨columnPass_sound l, by decide, by decide⟩

/-- C1 counterexample: the claim equates `maxColumns` with the interval-graph
clique number for EVERY finite appointment set, but the source computes
`Math.max(...columns, 0) + 1`, which is at least 1 even when no instant has
any active appointment: a single degenerate appointment `[00:10, 00:10)`
(explicit end equal to its start) is active at no instant, so the clique
number is 0 while `maxColumns` is 1. -/
theorem column_minimality_fails_degenerate :
    maxColumnsOf [⟨"00:10", "00:10", "c", "s", "programada"⟩] = 1 ∧
    cliqueNumber [⟨"00:10", "00:10", "c", "s", "programada"⟩] = 0 ∧
    maxColumnsOf [⟨"00:10", "00:10", "c", "s", "programada"⟩] ≠
      cliqueNumber [⟨"00:10", "00:10", "c", "s", "programada"⟩] :=
  ⟨by decide, by decide, by decide⟩

/-- C1 (amended): for every NONEMPTY set of appointments of one member whose
derived intervals are well formed (start strictly before end), the number of
columns produced by the greedy lowest-free-column pass over the
ascending-start order equals the interval graph's clique number — the maximum
number of appointments simultaneously active at any single instant.  (For
degenerate inputs `maxColumns` is floored at 1 by the `Math.max(..., 0) + 1`
computation.) -/
theorem greedy_columns_minimal (l : List Appt) (hne : l ≠ [])
    (hwf : ∀ a ∈ l, timeToMinutes a.start_time < timeToMinutes a.end_time) :
    maxColumnsOf l = cliqueNumber l ∧ ∀ t, activeAt l t ≤ maxColumnsOf l := by
  refine ⟨Nat.le_antisymm (maxColumns_le_cliqueNumber l hne hwf) ?_,
    activeAt_le_maxColumns l⟩
  unfold cliqueNumber
  refine foldr_max_le _ _ fun x hx => ?_
  obtain ⟨t, ht, rfl⟩ := List.mem_map.mp hx
  exact activeAt_le_maxColumns l t

/-- Witness for the C1 amended theorem on a concrete three-appointment day
whose busiest instant has two overlapping appointments. -/
theorem greedy_columns_minimal_witness :
    ([⟨"01:00", "02:00", "a", "s", "programada"⟩,
      ⟨"01:30", "02:30", "b", "s", "programada"⟩,
      ⟨"02:00", "03:00", "c", "s", "programada"⟩] : List Appt) ≠ [] ∧
    timeToMinutes "01:00" < timeToMinutes "02:00" ∧
    timeToMinutes "01:30" < timeToMinutes "02:30" ∧
    timeToMinutes "02:00" < timeToMinutes "03:00" ∧
    maxColumnsOf [⟨"01:00", "02:00", "a", "s", "programada"⟩,
      ⟨"01:30", "02:30", "b", "s", "programada"⟩,
      ⟨"02:00", "03:00", "c", "s", "programada"⟩] =
    cliqueNumber [⟨"01:00", "02:00", "a", "s", "programada"⟩,
      ⟨"01:30", "02:30", "b", "s", "programada"⟩,
      ⟨"02:00", "03:00", "c", "s", "programada"⟩] :=
  ⟨by decide, by decide, by decide, by decide,
    (greedy_columns_minimal
      [⟨"01:00", "02:00", "a", "s", "programada"⟩,
       ⟨"01:30", "02:30", "b", "s", "programada"⟩,
       ⟨"02:00", "03:00", "c", "s", "programada"⟩]
      (by decide) (by decide)).1⟩

end Skytide
